import Mathlib

/-!
Verification of the request-serving control layer of nbviewer, embedded from
src/nbviewer/providers/base.py: the error translation of upstream fetch
failures, the cache expiry computation, cache read and write fault isolation,
notebook render failure mapping, the slow-render timeout guard, and the
single-flight coalescing logic of the cached decorator.
-/

namespace NbviewerBase

/-! ### Error translator (BaseHandler.client_error_message, catch_client_error) -/

/-- errno constant pycurl.E_COULDNT_RESOLVE_HOST. -/
def E_COULDNT_RESOLVE_HOST : Int := 6

/-- errno constant pycurl.E_COULDNT_CONNECT. -/
def E_COULDNT_CONNECT : Int := 7

/-- html.escape with quote=True, as applied to the upstream response body. -/
def htmlEscape (s : String) : String :=
  ((((s.replace "&" "&amp;").replace "<" "&lt;").replace ">" "&gt;").replace
    "\"" "&quot;").replace "\x27" "&#x27;"

/-- The message part of BaseHandler.client_error_message: strip the
"HTTP 599: " marker, append a short plain-text body when the msg argument is
absent, and fall back to the exception text when msg stays falsy. -/
def client_error_msg (strExc0 body : String) (msgArg : Option String) : String :=
  let strExc := if strExc0.startsWith "HTTP 599: " then strExc0.drop 10 else strExc0
  let msg1 : Option String :=
    if msgArg = none ∧ body ≠ "" ∧ body.length < 100 then
      some (strExc ++ " (" ++ htmlEscape body ++ ")")
    else msgArg
  match msg1 with
  | none => strExc
  | some m => if m = "" then strExc else m

/-- BaseHandler.client_error_message: translate an upstream fetch failure,
described by the wrapped HTTP code, whether the exception is a CurlError and
its errno, the exception text, the response body and the optional msg
argument, into the client facing status code and message. -/
def client_error_message (excCode : ℕ) (isCurl : Bool) (errno : Int)
    (strExc0 body : String) (msgArg : Option String) : ℕ × String :=
  let msg := client_error_msg strExc0 body msgArg
  if excCode = 599 then
    -- the source conditionally assigns 404 for curl connect and resolve
    -- failures, then assigns 400 unconditionally, overwriting it
    let _deadStore : Option ℕ :=
      if isCurl ∧ (errno = E_COULDNT_CONNECT ∨ errno = E_COULDNT_RESOLVE_HOST)
      then some 404 else none
    (400, msg)
  else if 500 ≤ excCode then
    (502, msg)
  else if excCode = 404 then
    (404, "Remote " ++ msg)
  else
    (400, msg)

/-- An upstream fetch failure as observed by catch_client_error: either a
tornado httpclient.HTTPError, or a raw socket.error not wrapped by the
HTTP client. -/
inductive FetchFailure where
  | httpError (code : ℕ) (isCurl : Bool) (errno : Int) (strExc body : String)
  | socketError (msg : String)
deriving DecidableEq

/-- BaseHandler.catch_client_error: the status code and message of the
web.HTTPError raised for an upstream fetch failure. HTTP client errors go
through reraise_client_error and client_error_message; raw socket errors are
reraised as HTTP 404 carrying the socket error text. -/
def catch_client_error : FetchFailure → ℕ × String
  | .httpError c isCurl errno strExc body =>
      client_error_message c isCurl errno strExc body none
  | .socketError m => (404, m)

/-! ### Cache expiry (BaseHandler.cache_and_finish) -/

/-- The cache expiry computed by cache_and_finish: 120 times the observed
request time, clamped by cache_expiry_max from above and cache_expiry_min
from below; when the request uri is in max_cache_uris the expiry is
overridden to cache_expiry_max. -/
def computeExpiry (requestTime cacheExpiryMin cacheExpiryMax : ℚ)
    (promoted : Bool) : ℚ :=
  let expiry := max (min (120 * requestTime) cacheExpiryMax) cacheExpiryMin
  if promoted then cacheExpiryMax else expiry

/-- Claim C3: every upstream failure wrapped with HTTP code 599, including a
CurlError whose errno is E_COULDNT_CONNECT or E_COULDNT_RESOLVE_HOST, is
translated by client_error_message to client status 400, because the branch
assigning 404 is overwritten by the unconditional 400 assignment. -/
theorem c3_code599_maps_to_400 (isCurl : Bool) (errno : Int)
    (strExc body : String) (msgArg : Option String) :
    (client_error_message 599 isCurl errno strExc body msgArg).1 = 400 := by
  simp [client_error_message]

/-- Claim C4 counterexample: the upstream code 599 is at least 500, yet
client_error_message translates it to 400, not 502, so the claimed mapping
of every upstream status of at least 500 to 502 fails at 599. -/
theorem c4_counterexample :
    500 ≤ 599 ∧
      (client_error_message 599 false 0 "connection failed" "" none).1 = 400 ∧
      (client_error_message 599 false 0 "connection failed" "" none).1 ≠ 502 := by
  refine ⟨by decide, by rfl, by decide⟩

/-- Claim C4 amended: upstream status of at least 500 other than 599 gives
client status 502; upstream 404 gives 404 with the message prefixed
"Remote "; any other status below 500 gives 400; status 599 gives 400; and a
raw socket error is reraised as HTTP 404 carrying the socket error text. -/
theorem c4_error_translation (c : ℕ) (isCurl : Bool) (errno : Int)
    (strExc body m : String) (msgArg : Option String)
    (h5 : 500 ≤ c) (h599 : c ≠ 599) :
    (client_error_message c isCurl errno strExc body msgArg).1 = 502 ∧
    client_error_message 404 isCurl errno strExc body msgArg =
      (404, "Remote " ++ client_error_msg strExc body msgArg) ∧
    (∀ c2 : ℕ, c2 < 500 → c2 ≠ 404 →
      (client_error_message c2 isCurl errno strExc body msgArg).1 = 400) ∧
    (client_error_message 599 isCurl errno strExc body msgArg).1 = 400 ∧
    catch_client_error (.socketError m) = (404, m) := by
  refine ⟨?_, ?_, ?_, ?_, rfl⟩
  · simp only [client_error_message]
    rw [if_neg h599, if_pos h5]
  · simp [client_error_message]
  · intro c2 hlt h404
    simp only [client_error_message]
    rw [if_neg (by omega), if_neg (by omega), if_neg h404]
  · simp [client_error_message]

/-- Claim C4 witness: the amended translation at concrete failures. -/
theorem c4_error_translation_witness :
    (client_error_message 503 false 0 "boom" "" none).1 = 502 ∧
    client_error_message 404 false 0 "boom" "" none =
      (404, "Remote " ++ client_error_msg "boom" "" none) ∧
    (client_error_message 403 false 0 "boom" "" none).1 = 400 ∧
    (client_error_message 599 false 0 "boom" "" none).1 = 400 ∧
    catch_client_error (.socketError "connection reset") =
      (404, "connection reset") := by
  have h := c4_error_translation 503 false 0 "boom" "" "connection reset" none
    (by decide) (by decide)
  exact ⟨h.1, h.2.1, h.2.2.1 403 (by decide) (by decide), h.2.2.2.1, h.2.2.2.2⟩

/-- Claim C2: the expiry computed by cache_and_finish equals
max (min (120 d) mx) mn, lies between cache_expiry_min and cache_expiry_max,
equals 120 d whenever that product lies within the bounds, and equals
cache_expiry_max whenever the request uri is in max_cache_uris. -/
theorem c2_expiry_clamped (d mn mx : ℚ) (uri : String) (maxUris : List String)
    (h : mn ≤ mx) :
    (maxUris.contains uri = false →
      computeExpiry d mn mx (maxUris.contains uri) = max (min (120 * d) mx) mn ∧
      mn ≤ computeExpiry d mn mx (maxUris.contains uri) ∧
      computeExpiry d mn mx (maxUris.contains uri) ≤ mx ∧
      (mn ≤ 120 * d → 120 * d ≤ mx →
        computeExpiry d mn mx (maxUris.contains uri) = 120 * d)) ∧
    (maxUris.contains uri = true →
      computeExpiry d mn mx (maxUris.contains uri) = mx) := by
  constructor
  · intro hc
    rw [hc]
    refine ⟨rfl, ?_, ?_, ?_⟩
    · exact le_max_right _ _
    · exact max_le (min_le_right _ _) h
    · intro h1 h2
      show max (min (120 * d) mx) mn = 120 * d
      rw [min_eq_left h2, max_eq_left h1]
  · intro hc
    rw [hc]
    rfl

/-- Claim C2 witness: at request time 1 with bounds 60 and 120 the expiry is
120 times the request time, and a promoted uri always gets the maximum. -/
theorem c2_expiry_clamped_witness :
    ((60 : ℚ) ≤ 120) ∧
    computeExpiry 1 60 120 (([] : List String).contains "u") = 120 * 1 ∧
    computeExpiry 0 60 120 ((["u"] : List String).contains "u") = 120 := by
  refine ⟨by norm_num, ?_, ?_⟩
  · exact ((c2_expiry_clamped 1 60 120 "u" [] (by norm_num)).1 (by decide)).2.2.2
      (by norm_num) (by norm_num)
  · exact (c2_expiry_clamped 0 60 120 "u" ["u"] (by norm_num)).2 (by decide)

/-! ### Response caching (cache_headers, cache_and_finish, the cache probe) -/

/-- The mutable response state of a handler that matters for caching: the
response headers, the chunks written, and whether finish was called. -/
structure HandlerState where
  headers : List (String × String)
  written : List String
  finished : Bool
deriving DecidableEq

/-- Lookup of a response header by name. -/
def lookupHdr : List (String × String) → String → Option String
  | [], _ => none
  | (k, v) :: rest, key => if k = key then some v else lookupHdr rest key

/-- tornado set_header semantics on the header list: replace the value of an
existing header, otherwise append the new header. -/
def setHeaderList : List (String × String) → String → String → List (String × String)
  | [], key, v => [(key, v)]
  | (k, w) :: rest, key, v =>
      if k = key then (key, v) :: rest else (k, w) :: setHeaderList rest key v

/-- RequestHandler.set_header on the handler state. -/
def set_header (s : HandlerState) (key v : String) : HandlerState :=
  { s with headers := setHeaderList s.headers key v }

/-- RequestHandler.write: append a chunk to the output. -/
def hWrite (s : HandlerState) (chunk : String) : HandlerState :=
  { s with written := s.written ++ [chunk] }

/-- RequestHandler.finish: mark the response finished. -/
def hFinish (s : HandlerState) : HandlerState :=
  { s with finished := true }

/-- BaseHandler.cache_headers: of all response headers, keep only
Content-Type, and only when it is present. -/
def cache_headers (headers : List (String × String)) : List (String × String) :=
  (["Content-Type"]).filterMap fun key => (lookupHdr headers key).map fun v => (key, v)

/-- A deserialized cache entry: the dict with keys headers and body that
cache_and_finish pickles. -/
structure CacheEntry where
  headers : List (String × String)
  body : String
deriving DecidableEq

/-- The cache entry that cache_and_finish builds and stores: the filtered
cache_headers of the response and the body content. -/
def cacheDataOf (headers : List (String × String)) (content : String) : CacheEntry :=
  { headers := cache_headers headers, body := content }

/-- BaseHandler.cache_and_finish embedded on the handler state and the cache
cell for the request key: compute the expiry, set Cache-Control when the
expiry is positive, write the content and finish the response, and only then
attempt the cache set; a failing set (setFails) is caught and logged, leaving
the cache cell unchanged. Returns the final handler state and cache cell. -/
def cache_and_finish (s : HandlerState) (cacheCell : Option CacheEntry)
    (content : String) (requestTime mn mx : ℚ) (uri : String)
    (maxCacheUris : List String) (setFails : Bool) :
    HandlerState × Option CacheEntry :=
  let expiry := computeExpiry requestTime mn mx (maxCacheUris.contains uri)
  let s1 := if 0 < expiry then
      set_header s "Cache-Control" ("max-age=" ++ toString expiry.floor)
    else s
  let s2 := hFinish (hWrite s1 content)
  let cacheData := cacheDataOf s2.headers content
  let cacheCell2 := if setFails then cacheCell else some cacheData
  (s2, cacheCell2)

/-- The cache probe of the cached decorator: the cache get and the unpickle
both run inside one try block whose except clause turns any failure into a
miss (cached = None). getResult is the outcome of the cache client get,
loads the outcome of pickle.loads on the stored bytes. -/
def cacheProbe (getResult : Except String (Option String))
    (loads : String → Except String CacheEntry) : Option CacheEntry :=
  match getResult with
  | .error _ => none
  | .ok none => none
  | .ok (some p) =>
      match loads p with
      | .error _ => none
      | .ok c => some c

/-- The cache hit branch of the cached decorator: set each stored header via
set_header, then write the stored body. -/
def replayCached (s : HandlerState) (e : CacheEntry) : HandlerState :=
  hWrite (e.headers.foldl (fun acc kv => set_header acc kv.1 kv.2) s) e.body

/-- Claim C6: cache layer failures never surface. A failing cache get is
treated exactly as a miss, a failing unpickle is treated exactly as a miss,
and a failing cache set in cache_and_finish leaves the handler state, in
which the body was already written and the request already finished,
identical to the state of a successful set, touching only the cache cell. -/
theorem c6_cache_fault_isolation
    (err : String) (loads : String → Except String CacheEntry)
    (p perr : String) (hload : loads p = .error perr)
    (s : HandlerState) (cacheCell : Option CacheEntry) (content : String)
    (rt mn mx : ℚ) (uri : String) (maxUris : List String) :
    cacheProbe (.error err) loads = cacheProbe (.ok none) loads ∧
    cacheProbe (.ok (some p)) loads = none ∧
    (cache_and_finish s cacheCell content rt mn mx uri maxUris true).1 =
      (cache_and_finish s cacheCell content rt mn mx uri maxUris false).1 ∧
    (cache_and_finish s cacheCell content rt mn mx uri maxUris true).1.finished = true ∧
    (cache_and_finish s cacheCell content rt mn mx uri maxUris true).1.written =
      s.written ++ [content] ∧
    (cache_and_finish s cacheCell content rt mn mx uri maxUris true).2 = cacheCell := by
  refine ⟨rfl, ?_, rfl, rfl, ?_, rfl⟩
  · simp [cacheProbe, hload]
  · simp only [cache_and_finish, hFinish, hWrite, set_header]
    split <;> rfl

/-- Claim C6 witness: the fault isolation at a concrete request. -/
theorem c6_cache_fault_isolation_witness :
    cacheProbe (.error "timeout") (fun _ => .error "bad pickle") =
      cacheProbe (.ok none) (fun _ => .error "bad pickle") ∧
    cacheProbe (.ok (some "blob")) (fun _ => .error "bad pickle") = none ∧
    (cache_and_finish ⟨[], [], false⟩ none "page" 1 60 120 "/nb" [] true).1 =
      (cache_and_finish ⟨[], [], false⟩ none "page" 1 60 120 "/nb" [] false).1 ∧
    (cache_and_finish ⟨[], [], false⟩ none "page" 1 60 120 "/nb" [] true).1.finished = true ∧
    (cache_and_finish ⟨[], [], false⟩ none "page" 1 60 120 "/nb" [] true).1.written =
      ([] : List String) ++ ["page"] ∧
    (cache_and_finish ⟨[], [], false⟩ none "page" 1 60 120 "/nb" [] true).2 = none := by
  exact c6_cache_fault_isolation "timeout" (fun _ => .error "bad pickle")
    "blob" "bad pickle" rfl ⟨[], [], false⟩ none "page" 1 60 120 "/nb" []

/-- Setting one header preserves the lookup of every other header name. -/
theorem lookupHdr_setHeaderList_ne (l : List (String × String)) (key v j : String)
    (h : j ≠ key) : lookupHdr (setHeaderList l key v) j = lookupHdr l j := by
  induction l with
  | nil =>
      simp [setHeaderList, lookupHdr, h]
      exact Ne.symm h
  | cons kv rest ih =>
      obtain ⟨k, w⟩ := kv
      by_cases hk : k = key
      · subst hk
        simp [setHeaderList, lookupHdr, h, Ne.symm h]
      · simp only [setHeaderList, if_neg hk]
        by_cases hj : k = j
        · simp [lookupHdr, hj]
        · simp [lookupHdr, hj, ih]

/-- Replaying a list of stored headers through set_header changes no header
outside the stored names. -/
theorem lookupHdr_replay_fold (hs : List (String × String)) (s : HandlerState)
    (j : String) (hj : ∀ p ∈ hs, p.1 ≠ j) :
    lookupHdr (hs.foldl (fun acc kv => set_header acc kv.1 kv.2) s).headers j =
      lookupHdr s.headers j := by
  induction hs generalizing s with
  | nil => rfl
  | cons kv rest ih =>
      simp only [List.foldl_cons]
      rw [ih _ (fun p hp => hj p (List.mem_cons_of_mem _ hp))]
      exact lookupHdr_setHeaderList_ne s.headers kv.1 kv.2 j
        (fun he => hj kv (List.mem_cons_self _ _) he.symm)

/-- Claim C10: every stored cache entry holds at most the single header
Content-Type: each pair in cache_headers has key Content-Type with the
current response value, the entry built by cache_and_finish stores exactly
those headers, and therefore the cache hit replay leaves every header other
than Content-Type untouched. -/
theorem c10_only_content_type_cached
    (hdrs : List (String × String)) (content : String)
    (p : String × String) (hp : p ∈ (cacheDataOf hdrs content).headers)
    (s : HandlerState) (e : CacheEntry)
    (he : ∀ q ∈ e.headers, q.1 = "Content-Type") (j : String)
    (hj : j ≠ "Content-Type") :
    p.1 = "Content-Type" ∧
    lookupHdr hdrs "Content-Type" = some p.2 ∧
    (cacheDataOf hdrs content).headers = cache_headers hdrs ∧
    lookupHdr (replayCached s e).headers j = lookupHdr s.headers j := by
  have hreplay : lookupHdr (replayCached s e).headers j = lookupHdr s.headers j := by
    unfold replayCached
    have hw : (hWrite (e.headers.foldl (fun acc kv => set_header acc kv.1 kv.2) s)
        e.body).headers =
        (e.headers.foldl (fun acc kv => set_header acc kv.1 kv.2) s).headers := rfl
    rw [hw]
    exact lookupHdr_replay_fold e.headers s j
      (fun q hq => by rw [he q hq]; exact fun hh => hj hh.symm)
  rcases hlk : lookupHdr hdrs "Content-Type" with _ | v
  · exfalso
    have hnil : (cacheDataOf hdrs content).headers = [] := by
      simp [cacheDataOf, cache_headers, hlk]
    rw [hnil] at hp
    exact absurd hp (List.not_mem_nil p)
  · have hone : (cacheDataOf hdrs content).headers = [("Content-Type", v)] := by
      simp [cacheDataOf, cache_headers, hlk]
    rw [hone] at hp
    have hpv : p = ("Content-Type", v) := by simpa using hp
    subst hpv
    exact ⟨rfl, rfl, rfl, hreplay⟩

/-- Claim C10 witness: a concrete response stores only Content-Type, and the
replay leaves an unrelated header unchanged. -/
theorem c10_only_content_type_cached_witness :
    ("Content-Type", "text/html").1 = "Content-Type" ∧
    lookupHdr [("Cache-Control", "max-age=60"), ("Content-Type", "text/html")]
      "Content-Type" = some ("Content-Type", "text/html").2 ∧
    (cacheDataOf [("Cache-Control", "max-age=60"), ("Content-Type", "text/html")]
      "body").headers =
      cache_headers [("Cache-Control", "max-age=60"), ("Content-Type", "text/html")] ∧
    lookupHdr (replayCached ⟨[("Cache-Control", "max-age=60")], [], false⟩
      ⟨[("Content-Type", "text/html")], "body"⟩).headers "Cache-Control" =
      lookupHdr [("Cache-Control", "max-age=60")] "Cache-Control" := by
  exact c10_only_content_type_cached
    [("Cache-Control", "max-age=60"), ("Content-Type", "text/html")] "body"
    ("Content-Type", "text/html") (by decide)
    ⟨[("Cache-Control", "max-age=60")], [], false⟩
    ⟨[("Content-Type", "text/html")], "body"⟩
    (by intro q hq; simp only [List.mem_singleton] at hq; rw [hq])
    "Cache-Control" (by decide)

/-! ### Render orchestration (RenderingHandler.finish_notebook) -/

/-- The code and message of a raised web.HTTPError. -/
structure HTTPErr where
  code : ℕ
  msg : String
deriving DecidableEq

/-- The outcome of the offloaded render_notebook call: success with the
rendered html, an NbFormatError with its message, or any other exception
with its text. -/
inductive RenderOutcome where
  | ok (nbhtml : String)
  | nbformatError (m : String)
  | otherError (m : String)
deriving DecidableEq

/-- RenderingHandler.finish_notebook, embedded over the outcomes of its two
fallible collaborators: parse is the outcome of nbformat reads on the JSON
body (error on ValueError), render the outcome of the offloaded
render_notebook, and tmpl the notebook template rendering. The result is
either the raised web.HTTPError or the final html handed to
cache_and_finish. -/
def finish_notebook (parse : Except String String)
    (render : String → RenderOutcome) (tmpl : String → String) :
    Except HTTPErr String :=
  match parse with
  | .error _ => .error ⟨400, "Error reading JSON notebook"⟩
  | .ok nb =>
      match render nb with
      | .nbformatError m => .error ⟨400, m⟩
      | .otherError m => .error ⟨400, m⟩
      | .ok nbhtml => .ok (tmpl nbhtml)

/-- Claim C7: finish_notebook fails with status 400 for every rendering
failure: a JSON parse failure gives 400 with message
"Error reading JSON notebook", an NbFormatError gives 400 with the error
text, any other render exception gives 400 with its text, and every error
outcome whatsoever carries status 400. -/
theorem c7_render_failures_are_400
    (pe nb m : String) (render : String → RenderOutcome) (tmpl : String → String)
    (parse : Except String String) (e : HTTPErr)
    (herr : finish_notebook parse render tmpl = .error e) :
    finish_notebook (.error pe) render tmpl =
      .error ⟨400, "Error reading JSON notebook"⟩ ∧
    (render nb = .nbformatError m →
      finish_notebook (.ok nb) render tmpl = .error ⟨400, m⟩) ∧
    (render nb = .otherError m →
      finish_notebook (.ok nb) render tmpl = .error ⟨400, m⟩) ∧
    e.code = 400 := by
  refine ⟨rfl, ?_, ?_, ?_⟩
  · intro hr; simp [finish_notebook, hr]
  · intro hr; simp [finish_notebook, hr]
  · rcases parse with _ | nb2
    · simp only [finish_notebook] at herr
      cases herr; rfl
    · simp only [finish_notebook] at herr
      rcases hr : render nb2 with h1 | m1 | m1 <;> rw [hr] at herr <;>
        cases herr <;> rfl

/-- Claim C7 witness: the 400 mapping at concrete failing inputs. -/
theorem c7_render_failures_are_400_witness :
    finish_notebook (.error "bad json") (fun _ => .nbformatError "no format")
        (fun h => h) = .error ⟨400, "Error reading JSON notebook"⟩ ∧
    ((fun _ : String => RenderOutcome.nbformatError "no format") "nb" =
        .nbformatError "no format" →
      finish_notebook (.ok "nb") (fun _ => .nbformatError "no format")
        (fun h => h) = .error ⟨400, "no format"⟩) ∧
    ((fun _ : String => RenderOutcome.nbformatError "no format") "nb" =
        .otherError "no format" →
      finish_notebook (.ok "nb") (fun _ => .nbformatError "no format")
        (fun h => h) = .error ⟨400, "no format"⟩) ∧
    HTTPErr.code ⟨400, "Error reading JSON notebook"⟩ = 400 := by
  exact c7_render_failures_are_400 "bad json" "nb" "no format"
    (fun _ => .nbformatError "no format") (fun h => h) (.error "bad json")
    ⟨400, "Error reading JSON notebook"⟩ rfl

/-! ### Slow-render guard (RenderingHandler: the render_timeout slow_timeout
timer, finish_early, and the monkey-patched no-op methods) -/

/-- Which function is stored in a handler method slot: the original bound
method or, after finish_early patched it, the inert lambda returning None. -/
inductive MethodImpl where
  | normal
  | noop
deriving DecidableEq

/-- The visible state of a RenderingHandler request: whether the response is
finished, the pending status code, the buffered chunks, the responses flushed
to the client as pairs of status and body, the three patchable method slots,
whether the slow_timeout callback is still scheduled on the IOLoop, and the
rendering.waiting statsd counter. -/
structure RHState where
  finished : Bool
  status : ℕ
  buffer : List String
  sent : List (ℕ × String)
  writeImpl : MethodImpl
  finishImpl : MethodImpl
  redirectImpl : MethodImpl
  slowTimeoutScheduled : Bool
  waitingCount : ℕ
deriving DecidableEq

/-- Concatenation of the buffered chunks into the response body. -/
def bodyOf (buf : List String) : String := buf.foldl (fun a c => a ++ c) ""

/-- self.write through the current write slot: the patched slot does nothing
and raises nothing; the original raises once the response is finished. -/
def rhWrite (s : RHState) (chunk : String) : Except String RHState :=
  match s.writeImpl with
  | .noop => .ok s
  | .normal =>
      if s.finished then .error "Cannot write() after finish()"
      else .ok { s with buffer := s.buffer ++ [chunk] }

/-- self.finish through the current finish slot: the patched slot does
nothing; the original flushes the buffered body plus the optional chunk as
one response with the pending status and marks the response finished. -/
def rhFinish (s : RHState) (chunk : Option String) : Except String RHState :=
  match s.finishImpl with
  | .noop => .ok s
  | .normal =>
      if s.finished then .error "finish() called twice"
      else
        let buf := match chunk with
          | some c => s.buffer ++ [c]
          | none => s.buffer
        .ok { s with buffer := [], finished := true,
                     sent := s.sent ++ [(s.status, bodyOf buf)] }

/-- self.redirect through the current redirect slot: the patched slot does
nothing; the original raises once the response is finished, otherwise sends
the redirect and finishes. -/
def rhRedirect (s : RHState) (url : String) : Except String RHState :=
  match s.redirectImpl with
  | .noop => .ok s
  | .normal =>
      if s.finished then .error "Cannot redirect after the response is finished"
      else .ok { s with finished := true, sent := s.sent ++ [(302, url)] }

/-- The body of the slow_notebook.html template. -/
def slowNotebookHtml : String := "slow_notebook"

/-- RenderingHandler.finish_early: when the slow timer fires, return
immediately if the response is already finished; otherwise render the
waiting page, set status 202, finish with it, then irrevocably replace
write, finish and redirect by the inert lambda and bump the
rendering.waiting counter. -/
def finish_early (s : RHState) : RHState :=
  if s.finished then s
  else
    let s1 := { s with status := 202 }
    let s2 := match rhFinish s1 (some slowNotebookHtml) with
      | .ok s' => s'
      | .error _ => s1
    { s2 with writeImpl := .noop, finishImpl := .noop, redirectImpl := .noop,
              waitingCount := s2.waitingCount + 1 }

/-- The IOLoop running the slow_timeout callback when it comes due: firing
consumes the scheduled entry and runs finish_early. Cancelling would clear
the entry without running it, but no code path of the handler does so. -/
def fireSlowTimeout (s : RHState) : RHState :=
  if s.slowTimeoutScheduled then
    finish_early { s with slowTimeoutScheduled := false }
  else s

/-- RenderingHandler.initialize: a fresh request state; when render_timeout
is nonzero the slow_timeout callback is scheduled on the IOLoop. -/
def rhInit (renderTimeout : ℕ) : RHState :=
  { finished := false, status := 200, buffer := [], sent := [],
    writeImpl := .normal, finishImpl := .normal, redirectImpl := .normal,
    slowTimeoutScheduled := decide (renderTimeout ≠ 0), waitingCount := 0 }

/-- One later call of the still-running render path on the handler. -/
inductive WriteOp where
  | write (chunk : String)
  | finishOp (chunk : Option String)
  | redirectOp (url : String)

/-- Dispatch one call through the current method slots. -/
def applyOp (s : RHState) : WriteOp → Except String RHState
  | .write c => rhWrite s c
  | .finishOp c => rhFinish s c
  | .redirectOp u => rhRedirect s u

/-- Dispatch a sequence of calls, stopping at the first raised error. -/
def applyOps (s : RHState) : List WriteOp → Except String RHState
  | [] => .ok s
  | op :: ops =>
      match applyOp s op with
      | .error e => .error e
      | .ok s' => applyOps s' ops

/-- With all three method slots patched to the inert lambda, any sequence of
write, finish and redirect calls does nothing and raises nothing. -/
theorem applyOps_noop (s : RHState) (hw : s.writeImpl = .noop)
    (hf : s.finishImpl = .noop) (hr : s.redirectImpl = .noop)
    (ops : List WriteOp) : applyOps s ops = .ok s := by
  induction ops with
  | nil => rfl
  | cons op rest ih =>
      have hop : applyOp s op = .ok s := by
        cases op with
        | write c => simp [applyOp, rhWrite, hw]
        | finishOp c => simp [applyOp, rhFinish, hf]
        | redirectOp u => simp [applyOp, rhRedirect, hr]
      simp [applyOps, hop, ih]

/-- Claim C8: if the slow timer fires while the request has not produced a
final response, exactly one response is sent, the interim one with status
202 and the waiting page, the response is then finished, and every later
write, finish or redirect call from the still-running render path is a
no-op that raises nothing and emits no second response. -/
theorem c8_slow_timeout_single_response (s : RHState)
    (hfin : s.finished = false) (_hw : s.writeImpl = .normal)
    (hf : s.finishImpl = .normal) (hsent : s.sent = []) :
    (finish_early s).sent = [(202, bodyOf (s.buffer ++ [slowNotebookHtml]))] ∧
    (finish_early s).finished = true ∧
    ∀ ops : List WriteOp, applyOps (finish_early s) ops = .ok (finish_early s) := by
  have hfe : finish_early s =
      { s with status := 202, buffer := [], finished := true,
               sent := s.sent ++ [(202, bodyOf (s.buffer ++ [slowNotebookHtml]))],
               writeImpl := .noop, finishImpl := .noop, redirectImpl := .noop,
               waitingCount := s.waitingCount + 1 } := by
    unfold finish_early
    rw [if_neg (by rw [hfin]; exact Bool.false_ne_true)]
    simp [rhFinish, hf, hfin]
  refine ⟨?_, ?_, ?_⟩
  · rw [hfe, hsent]; rfl
  · rw [hfe]
  · intro ops
    exact applyOps_noop _ (by rw [hfe]) (by rw [hfe]) (by rw [hfe]) ops

/-- Claim C8 witness: a concrete in-flight request receives exactly the 202
waiting page, and later render writes are no-ops. -/
theorem c8_slow_timeout_single_response_witness :
    (finish_early (rhInit 90)).sent =
      [(202, bodyOf (([] : List String) ++ [slowNotebookHtml]))] ∧
    (finish_early (rhInit 90)).finished = true ∧
    applyOps (finish_early (rhInit 90)) [.write "late html", .finishOp none] =
      .ok (finish_early (rhInit 90)) := by
  have h := c8_slow_timeout_single_response (rhInit 90) rfl rfl rfl rfl
  exact ⟨h.1, h.2.1, h.2.2 [.write "late html", .finishOp none]⟩

/-- After RenderingHandler.initialize with a positive render_timeout, the
state of a request that then finished normally, writing its rendered page. -/
def afterNormalFinish : RHState :=
  match rhFinish (rhInit 90) (some "rendered page") with
  | .ok s => s
  | .error _ => rhInit 90

/-- Claim C9 counterexample: a request with a positive render_timeout budget
finishes normally, yet the slow_timeout callback is still scheduled on the
IOLoop afterwards: the handler code never removes the timeout, so the
claimed unconditional cancellation does not happen. -/
theorem c9_counterexample :
    afterNormalFinish.finished = true ∧
    afterNormalFinish.slowTimeoutScheduled = true ∧
    afterNormalFinish.slowTimeoutScheduled ≠ false := by
  refine ⟨rfl, rfl, by decide⟩

/-- Claim C9 amended: the slow-render timer is never cancelled. Finishing a
request leaves the scheduled callback in place, and when the callback later
fires on a finished request, the finished guard of finish_early makes it a
no-op: nothing further is sent, the status, buffer and method slots are
untouched, and only the scheduled entry is consumed. -/
theorem c9_timer_noop_after_finish (s : RHState) (h : s.finished = true) :
    (∀ s2 : RHState, ∀ c : Option String, ∀ s3 : RHState,
      rhFinish s2 c = .ok s3 → s3.slowTimeoutScheduled = s2.slowTimeoutScheduled) ∧
    (fireSlowTimeout s).sent = s.sent ∧
    (fireSlowTimeout s).status = s.status ∧
    (fireSlowTimeout s).buffer = s.buffer ∧
    (fireSlowTimeout s).writeImpl = s.writeImpl ∧
    (fireSlowTimeout s).finishImpl = s.finishImpl ∧
    (fireSlowTimeout s).redirectImpl = s.redirectImpl ∧
    (fireSlowTimeout s).finished = true ∧
    (fireSlowTimeout s).slowTimeoutScheduled = false := by
  have hfire : fireSlowTimeout s =
      if s.slowTimeoutScheduled then { s with slowTimeoutScheduled := false }
      else s := by
    unfold fireSlowTimeout
    by_cases hs : s.slowTimeoutScheduled
    · rw [if_pos hs, if_pos hs]
      unfold finish_early
      rw [if_pos (show ({ s with slowTimeoutScheduled := false } :
        RHState).finished = true from h)]
    · rw [if_neg hs, if_neg hs]
  constructor
  · intro s2 c s3 hok
    cases hfi : s2.finishImpl with
    | noop =>
        simp only [rhFinish, hfi] at hok
        cases hok
        rfl
    | normal =>
        by_cases hf2 : s2.finished = true
        · simp only [rhFinish, hfi, if_pos hf2] at hok
          cases hok
        · simp only [rhFinish, hfi, if_neg hf2] at hok
          cases hok
          rfl
  · by_cases hs : s.slowTimeoutScheduled <;> rw [hfire] <;> simp [hs, h]

/-- Claim C9 amended witness: firing the never-cancelled timer on the
concrete finished request emits nothing. -/
theorem c9_timer_noop_after_finish_witness :
    (fireSlowTimeout afterNormalFinish).sent = afterNormalFinish.sent ∧
    (fireSlowTimeout afterNormalFinish).finished = true ∧
    (fireSlowTimeout afterNormalFinish).slowTimeoutScheduled = false := by
  have h := c9_timer_noop_after_finish afterNormalFinish rfl
  exact ⟨h.2.1, h.2.2.2.2.2.2.2.1, h.2.2.2.2.2.2.2.2⟩

/-! ### Single-flight coalescing (the cached decorator) as an interleaving
machine.

Each concurrent request runs cached_method on the tornado IOLoop. The code
between two awaits executes atomically; the suspension points are the await
on a pending future, the cache get, the rate limiter check, and the wrapped
method itself. One machine step runs one request from its current suspension
point to the next. The pending registry is the dict self.pending keyed by
self.request.path; the cache is keyed by the same path (the sha1 digest of
the keyed attribute is modelled as the key itself). The registration
future = self.pending[uri] = Future() and the start of the wrapped method
happen in one atomic slice right after the rate limiter returns, and the
finally block pending.pop(uri, None) followed by future.set_result(None)
runs in one atomic slice when the wrapped method completes, together with
the cache set that cache_and_finish performs just before the method
returns. -/

/-- Pointwise update of a function, the semantics of a dict assignment. -/
def upd {α β : Type} [DecidableEq α] (f : α → β) (a : α) (b : β) : α → β :=
  fun x => if x = a then b else f x

theorem upd_same {α β : Type} [DecidableEq α] (f : α → β) (a : α) (b : β) :
    upd f a b a = b := by simp [upd]

theorem upd_ne {α β : Type} [DecidableEq α] (f : α → β) (a : α) (b : β)
    (x : α) (h : x ≠ a) : upd f a b x = f x := by simp [upd, h]

/-- One request of a concurrent group: its key (self.request.path, used for
both the pending registry and the cache), its flush_cache bypass flag,
whether its wrapped compute path returns normally and caches (true) or
raises (false), and the body it would cache. -/
structure Req where
  key : String
  flush : Bool
  succeeds : Bool
  body : String
deriving DecidableEq

/-- The suspension point a request is at inside cached_method: about to run
the flush check and pending probe; awaiting the rate limiter on the flush
path; running the wrapped method on the flush path; awaiting the future of
the request that owns the PendingRequest; awaiting the cache get; awaiting
the rate limiter on the miss path; running the wrapped method after having
registered its own future; or finished via a cache hit, via the compute
path, or via the flush path. -/
inductive PC (n : ℕ) where
  | start
  | flushRate
  | flushRun
  | waiting (owner : Fin n)
  | cacheGet
  | rateCheck
  | running
  | doneHit
  | doneCompute
  | doneFlush
deriving DecidableEq

/-- The shared state of n concurrent requests: the program counter of each,
the pending dict (path to registering request), the cache (path to stored
body), the future of each request (none while absent or unresolved, some r
once resolved with result r), how many times the wrapped compute path was
invoked, which requests registered their own future, and how many times
each future was resolved. -/
structure SysState (n : ℕ) where
  pc : Fin n → PC n
  pending : String → Option (Fin n)
  cache : String → Option String
  future : Fin n → Option (Option String)
  renderCount : ℕ
  registered : Fin n → Bool
  resolveCount : Fin n → ℕ

/-- One atomic step of request t, following cached_method line by line. -/
def stepSys {n : ℕ} (reqs : Fin n → Req) (t : Fin n) (s : SysState n) :
    SysState n :=
  let r := reqs t
  match s.pc t with
  | .start =>
      -- flush_cache check, then pending probe; both synchronous
      if r.flush then { s with pc := upd s.pc t .flushRate }
      else
        match s.pending r.key with
        | some o => { s with pc := upd s.pc t (.waiting o) }
        | none => { s with pc := upd s.pc t .cacheGet }
  | .flushRate =>
      -- the rate limiter returns, the wrapped method is invoked directly
      { s with pc := upd s.pc t .flushRun, renderCount := s.renderCount + 1 }
  | .flushRun =>
      -- the wrapped method completes; on success it cached its response
      { s with pc := upd s.pc t .doneFlush,
               cache := if r.succeeds then upd s.cache r.key (some r.body)
                        else s.cache }
  | .waiting owner =>
      -- await pending_future: runnable only once the owner resolved it
      match s.future owner with
      | some _ => { s with pc := upd s.pc t .cacheGet }
      | none => s
  | .cacheGet =>
      -- the cache get returns the current entry; hit or miss is decided
      match s.cache r.key with
      | some _ => { s with pc := upd s.pc t .doneHit }
      | none => { s with pc := upd s.pc t .rateCheck }
  | .rateCheck =>
      -- the rate limiter returns; future = self.pending[uri] = Future()
      -- and the invocation of the wrapped method follow atomically
      { s with pc := upd s.pc t .running,
               pending := upd s.pending r.key (some t),
               registered := upd s.registered t true,
               renderCount := s.renderCount + 1 }
  | .running =>
      -- the wrapped method completes, caching on success; the finally
      -- block pops the pending entry and then resolves the future with None
      { s with pc := upd s.pc t .doneCompute,
               cache := if r.succeeds then upd s.cache r.key (some r.body)
                        else s.cache,
               pending := upd s.pending r.key none,
               future := upd s.future t (some none),
               resolveCount := upd s.resolveCount t (s.resolveCount t + 1) }
  | .doneHit => s
  | .doneCompute => s
  | .doneFlush => s

/-- Run the machine under a schedule listing which request steps next. -/
def runSys {n : ℕ} (reqs : Fin n → Req) : List (Fin n) → SysState n → SysState n
  | [], s => s
  | t :: sched, s => runSys reqs sched (stepSys reqs t s)

/-- The initial state: every request at its first step, the pending dict and
the cache empty, no future created, nothing invoked. -/
def initSys (n : ℕ) : SysState n :=
  { pc := fun _ => .start, pending := fun _ => none, cache := fun _ => none,
    future := fun _ => none, renderCount := 0, registered := fun _ => false,
    resolveCount := fun _ => 0 }

/-- A non-bypass request whose compute path succeeds. -/
def raceReq : Req := { key := "/nb", flush := false, succeeds := true, body := "html" }

/-- The racing schedule: both requests pass the pending probe before either
reaches the registration that follows the cache get and the rate limiter
awaits. -/
def raceSched : List (Fin 2) := [0, 1, 0, 1, 0, 1, 0, 1]

/-- Claim C1 counterexample: two concurrent non-bypass requests for the same
path, no cache entry present. Under the schedule in which both requests
perform the pending probe before either registers its future, the wrapped
compute path is invoked twice, not once, and the second request registers
its own PendingRequest instead of awaiting the first. -/
theorem c1_counterexample :
    (runSys (fun _ => raceReq) raceSched (initSys 2)).renderCount = 2 ∧
    (runSys (fun _ => raceReq) raceSched (initSys 2)).registered 0 = true ∧
    (runSys (fun _ => raceReq) raceSched (initSys 2)).registered 1 = true ∧
    (runSys (fun _ => raceReq) raceSched (initSys 2)).renderCount ≠ 1 := by
  refine ⟨by decide, by decide, by decide, by decide⟩

/-- The requests form a group on path u with first request t0: all share the
key, none carries the bypass flag, and the compute path of t0 succeeds. -/
def GroupReqs {n : ℕ} (reqs : Fin n → Req) (u : String) (t0 : Fin n) : Prop :=
  (∀ t, (reqs t).key = u ∧ (reqs t).flush = false) ∧ (reqs t0).succeeds = true

/-- The single-flight invariant once the first request t0 has registered its
PendingRequest: while t0 is computing, the registry maps u to t0, the cache
is still empty, the future of t0 is unresolved, and every other request is
at its first step or awaiting the future of t0; after t0 completed, the
registry entry is gone, the cache is populated, the future of t0 is
resolved, and every other request is at its first step, awaiting, probing
the cache, or finished via a hit. In both phases the compute path ran
exactly once and no other request registered a future of its own. -/
def SFInv {n : ℕ} (u : String) (t0 : Fin n) (s : SysState n) : Prop :=
  s.renderCount = 1 ∧ (∀ t, t ≠ t0 → s.registered t = false) ∧
  ((s.pc t0 = .running ∧ s.pending u = some t0 ∧ s.cache u = none ∧
      s.future t0 = none ∧
      ∀ t, t ≠ t0 → s.pc t = .start ∨ s.pc t = .waiting t0) ∨
   (s.pc t0 = .doneCompute ∧ s.pending u = none ∧ (s.cache u).isSome = true ∧
      s.future t0 = some none ∧
      ∀ t, t ≠ t0 → s.pc t = .start ∨ s.pc t = .waiting t0 ∨
        s.pc t = .cacheGet ∨ s.pc t = .doneHit))

instance {n : ℕ} (reqs : Fin n → Req) (u : String) (t0 : Fin n) :
    Decidable (GroupReqs reqs u t0) := by
  unfold GroupReqs; infer_instance

instance {n : ℕ} (u : String) (t0 : Fin n) (s : SysState n) :
    Decidable (SFInv u t0 s) := by
  unfold SFInv; infer_instance

/-- Every step of every request preserves the single-flight invariant. -/
theorem sfInv_step {n : ℕ} (reqs : Fin n → Req) (u : String) (t0 : Fin n)
    (hg : GroupReqs reqs u t0) (s : SysState n) (h : SFInv u t0 s)
    (t : Fin n) : SFInv u t0 (stepSys reqs t s) := by
  obtain ⟨hkeys, hsucc⟩ := hg
  obtain ⟨hrc, hreg, hphase⟩ := h
  rcases hphase with ⟨hpc0, hpend, hcache, hfut, hoth⟩ |
    ⟨hpc0, hpend, hcache, hfut, hoth⟩
  · -- phase 1: t0 is computing
    by_cases ht : t = t0
    · subst ht
      have hstep : stepSys reqs t s =
          { s with pc := upd s.pc t .doneCompute,
                   cache := upd s.cache u (some (reqs t).body),
                   pending := upd s.pending u none,
                   future := upd s.future t (some none),
                   resolveCount := upd s.resolveCount t (s.resolveCount t + 1) } := by
        simp only [stepSys, hpc0, hsucc, (hkeys t).1, if_true]
      rw [hstep]
      refine ⟨hrc, hreg, Or.inr ⟨?_, ?_, ?_, ?_, ?_⟩⟩
      · simp [upd]
      · simp [upd]
      · simp [upd]
      · simp [upd]
      · intro t' ht'
        show upd s.pc t _ t' = _ ∨ upd s.pc t _ t' = _ ∨
          upd s.pc t _ t' = _ ∨ upd s.pc t _ t' = _
        rw [upd_ne _ _ _ _ ht']
        rcases hoth t' ht' with h1 | h1
        · exact Or.inl h1
        · exact Or.inr (Or.inl h1)
    · rcases hoth t ht with hpct | hpct
      · -- at its first step: the probe finds the pending entry of t0
        have hstep : stepSys reqs t s =
            { s with pc := upd s.pc t (.waiting t0) } := by
          simp only [stepSys, hpct, (hkeys t).2, (hkeys t).1, hpend,
            Bool.false_eq_true, if_false]
        rw [hstep]
        refine ⟨hrc, hreg, Or.inl ⟨?_, hpend, hcache, hfut, ?_⟩⟩
        · show upd s.pc t _ t0 = _
          rw [upd_ne _ _ _ _ (Ne.symm ht)]; exact hpc0
        · intro t' ht'
          show upd s.pc t _ t' = _ ∨ upd s.pc t _ t' = _
          by_cases htt : t' = t
          · subst htt; rw [upd_same]; exact Or.inr rfl
          · rw [upd_ne _ _ _ _ htt]; exact hoth t' ht'
      · -- awaiting the unresolved future of t0: the step is a no-op
        have hstep : stepSys reqs t s = s := by
          simp only [stepSys, hpct, hfut]
        rw [hstep]
        exact ⟨hrc, hreg, Or.inl ⟨hpc0, hpend, hcache, hfut, hoth⟩⟩
  · -- phase 2: t0 has completed and populated the cache
    obtain ⟨b, hb⟩ := Option.isSome_iff_exists.mp hcache
    by_cases ht : t = t0
    · subst ht
      have hstep : stepSys reqs t s = s := by
        simp only [stepSys, hpc0]
      rw [hstep]
      exact ⟨hrc, hreg, Or.inr ⟨hpc0, hpend, hcache, hfut, hoth⟩⟩
    · rcases hoth t ht with hpct | hpct | hpct | hpct
      · -- first step: the probe finds no pending entry, moves to the get
        have hstep : stepSys reqs t s =
            { s with pc := upd s.pc t .cacheGet } := by
          simp only [stepSys, hpct, (hkeys t).2, (hkeys t).1, hpend,
            Bool.false_eq_true, if_false]
        rw [hstep]
        refine ⟨hrc, hreg, Or.inr ⟨?_, hpend, hcache, hfut, ?_⟩⟩
        · show upd s.pc t _ t0 = _
          rw [upd_ne _ _ _ _ (Ne.symm ht)]; exact hpc0
        · intro t' ht'
          show upd s.pc t _ t' = _ ∨ upd s.pc t _ t' = _ ∨
            upd s.pc t _ t' = _ ∨ upd s.pc t _ t' = _
          by_cases htt : t' = t
          · subst htt; rw [upd_same]; exact Or.inr (Or.inr (Or.inl rfl))
          · rw [upd_ne _ _ _ _ htt]; exact hoth t' ht'
      · -- the resolved future wakes the waiter, it proceeds to the get
        have hstep : stepSys reqs t s =
            { s with pc := upd s.pc t .cacheGet } := by
          simp only [stepSys, hpct, hfut]
        rw [hstep]
        refine ⟨hrc, hreg, Or.inr ⟨?_, hpend, hcache, hfut, ?_⟩⟩
        · show upd s.pc t _ t0 = _
          rw [upd_ne _ _ _ _ (Ne.symm ht)]; exact hpc0
        · intro t' ht'
          show upd s.pc t _ t' = _ ∨ upd s.pc t _ t' = _ ∨
            upd s.pc t _ t' = _ ∨ upd s.pc t _ t' = _
          by_cases htt : t' = t
          · subst htt; rw [upd_same]; exact Or.inr (Or.inr (Or.inl rfl))
          · rw [upd_ne _ _ _ _ htt]; exact hoth t' ht'
      · -- the cache get returns the populated entry: a hit
        have hstep : stepSys reqs t s =
            { s with pc := upd s.pc t .doneHit } := by
          simp only [stepSys, hpct, (hkeys t).1, hb]
        rw [hstep]
        refine ⟨hrc, hreg, Or.inr ⟨?_, hpend, hcache, hfut, ?_⟩⟩
        · show upd s.pc t _ t0 = _
          rw [upd_ne _ _ _ _ (Ne.symm ht)]; exact hpc0
        · intro t' ht'
          show upd s.pc t _ t' = _ ∨ upd s.pc t _ t' = _ ∨
            upd s.pc t _ t' = _ ∨ upd s.pc t _ t' = _
          by_cases htt : t' = t
          · subst htt; rw [upd_same]; exact Or.inr (Or.inr (Or.inr rfl))
          · rw [upd_ne _ _ _ _ htt]; exact hoth t' ht'
      · -- already finished via a hit
        have hstep : stepSys reqs t s = s := by
          simp only [stepSys, hpct]
        rw [hstep]
        exact ⟨hrc, hreg, Or.inr ⟨hpc0, hpend, hcache, hfut, hoth⟩⟩

/-- The single-flight invariant is preserved by whole schedules. -/
theorem sfInv_run {n : ℕ} (reqs : Fin n → Req) (u : String) (t0 : Fin n)
    (hg : GroupReqs reqs u t0) (sched : List (Fin n)) (s : SysState n)
    (h : SFInv u t0 s) : SFInv u t0 (runSys reqs sched s) := by
  induction sched generalizing s with
  | nil => exact h
  | cons t rest ih => exact ih _ (sfInv_step reqs u t0 hg s h t)

/-- Claim C1 amended: once the first request of a group has registered its
PendingRequest and is computing, and its compute path succeeds in
populating the cache, then under every further schedule the wrapped compute
path runs exactly once; no later request ever registers a future of its
own, and each later request is at its first step, awaiting the first
request's future, probing the cache, or finished via a cache hit. Requests
whose pending probes interleave before the first registration are not
covered: they can each invoke the compute path, as the counterexample
shows. -/
theorem c1_single_flight_after_registration {n : ℕ} (reqs : Fin n → Req)
    (u : String) (t0 : Fin n) (hg : GroupReqs reqs u t0) (s0 : SysState n)
    (h0 : SFInv u t0 s0) (sched : List (Fin n)) :
    (runSys reqs sched s0).renderCount = 1 ∧
    (∀ t, t ≠ t0 → (runSys reqs sched s0).registered t = false) ∧
    (∀ t, t ≠ t0 →
      (runSys reqs sched s0).pc t = .start ∨
      (runSys reqs sched s0).pc t = .waiting t0 ∨
      (runSys reqs sched s0).pc t = .cacheGet ∨
      (runSys reqs sched s0).pc t = .doneHit) := by
  obtain ⟨hrc, hreg, hphase⟩ := sfInv_run reqs u t0 hg sched s0 h0
  refine ⟨hrc, hreg, ?_⟩
  intro t ht
  rcases hphase with ⟨_, _, _, _, hoth⟩ | ⟨_, _, _, _, hoth⟩
  · rcases hoth t ht with h1 | h1
    · exact Or.inl h1
    · exact Or.inr (Or.inl h1)
  · exact hoth t ht

/-- The state in which the first of two concurrent requests has probed the
pending dict, missed the cache, passed the rate limiter and registered its
PendingRequest, while the second has not yet taken a step. -/
def coalesceStart : SysState 2 := runSys (fun _ => raceReq) [0, 0, 0] (initSys 2)

/-- Claim C1 amended witness: from the registered state, a concrete schedule
of the second request and the first leaves the compute path invoked exactly
once and the second request unregistered, finished via a cache hit. -/
theorem c1_single_flight_witness :
    (runSys (fun _ => raceReq) [1, 0, 1, 1] coalesceStart).renderCount = 1 ∧
    (runSys (fun _ => raceReq) [1, 0, 1, 1] coalesceStart).registered 1 = false ∧
    ((runSys (fun _ => raceReq) [1, 0, 1, 1] coalesceStart).pc 1 = .start ∨
      (runSys (fun _ => raceReq) [1, 0, 1, 1] coalesceStart).pc 1 = .waiting 0 ∨
      (runSys (fun _ => raceReq) [1, 0, 1, 1] coalesceStart).pc 1 = .cacheGet ∨
      (runSys (fun _ => raceReq) [1, 0, 1, 1] coalesceStart).pc 1 = .doneHit) := by
  have h := c1_single_flight_after_registration (fun _ => raceReq) "/nb"
    (0 : Fin 2) (by decide) coalesceStart (by decide) [1, 0, 1, 1]
  exact ⟨h.1, h.2.1 1 (by decide), h.2.2 1 (by decide)⟩

/-- A step by another request never moves the program counter of x. -/
theorem stepSys_pc_ne {n : ℕ} (reqs : Fin n → Req) (t x : Fin n)
    (s : SysState n) (hxt : x ≠ t) : (stepSys reqs t s).pc x = s.pc x := by
  rcases hpc : s.pc t with _ | _ | _ | owner | _ | _ | _ | _ | _ | _ <;>
    simp only [stepSys, hpc] <;> (repeat' split) <;> simp [upd, hxt]

/-- The resolve counter of x changes only at the step that completes the
compute path of x itself, where it goes up by one. -/
theorem stepSys_resolveCount {n : ℕ} (reqs : Fin n → Req) (t x : Fin n)
    (s : SysState n) :
    (stepSys reqs t s).resolveCount x =
      if x = t ∧ s.pc t = .running then s.resolveCount x + 1
      else s.resolveCount x := by
  rcases hpc : s.pc t with _ | _ | _ | owner | _ | _ | _ | _ | _ | _ <;>
    simp only [stepSys, hpc] <;> (repeat' split) <;> simp_all [upd]

/-- The future of x is written only at the step that completes the compute
path of x itself, where set_result stores None. -/
theorem stepSys_future {n : ℕ} (reqs : Fin n → Req) (t x : Fin n)
    (s : SysState n) :
    (stepSys reqs t s).future x =
      if x = t ∧ s.pc t = .running then some none else s.future x := by
  rcases hpc : s.pc t with _ | _ | _ | owner | _ | _ | _ | _ | _ | _ <;>
    simp only [stepSys, hpc] <;> (repeat' split) <;> simp_all [upd]

/-- The program counter of x reaches doneCompute exactly by already being
there or by x completing its own compute path in this step. -/
theorem stepSys_pc_doneCompute {n : ℕ} (reqs : Fin n → Req) (t x : Fin n)
    (s : SysState n) :
    (stepSys reqs t s).pc x = .doneCompute ↔
      (s.pc x = .doneCompute ∨ (x = t ∧ s.pc t = .running)) := by
  by_cases hxt : x = t
  · subst hxt
    rcases hpc : s.pc x with _ | _ | _ | owner | _ | _ | _ | _ | _ | _ <;>
      simp only [stepSys, hpc] <;> (repeat' split) <;> simp [upd, hpc]
  · rw [stepSys_pc_ne reqs t x s hxt]
    simp [hxt]

/-- The compute path resolution invariant: a request that has completed its
compute path has resolved its future exactly once, with result None; any
other request has never resolved its future and its future is absent or
unresolved. -/
def ResolveInv {n : ℕ} (s : SysState n) : Prop :=
  ∀ t, (s.pc t = .doneCompute → s.resolveCount t = 1 ∧ s.future t = some none) ∧
       (s.pc t ≠ .doneCompute → s.resolveCount t = 0 ∧ s.future t = none)

/-- The initial state satisfies the resolution invariant. -/
theorem resolveInv_init (n : ℕ) : ResolveInv (initSys n) := by
  intro t
  refine ⟨fun h => ?_, fun _ => ⟨rfl, rfl⟩⟩
  simp [initSys] at h

/-- Every step preserves the resolution invariant. -/
theorem resolveInv_step {n : ℕ} (reqs : Fin n → Req) (t : Fin n)
    (s : SysState n) (h : ResolveInv s) : ResolveInv (stepSys reqs t s) := by
  intro x
  constructor
  · intro hdc
    rw [stepSys_pc_doneCompute] at hdc
    rw [stepSys_resolveCount, stepSys_future]
    rcases hdc with hdc | ⟨hxt, hrun⟩
    · have hx := (h x).1 hdc
      have hcond : ¬(x = t ∧ s.pc t = .running) := by
        rintro ⟨hxt, hrun⟩
        subst hxt
        rw [hdc] at hrun
        cases hrun
      rw [if_neg hcond, if_neg hcond]
      exact hx
    · subst hxt
      have hx := (h x).2 (by rw [hrun]; intro hc; cases hc)
      rw [if_pos ⟨rfl, hrun⟩, if_pos ⟨rfl, hrun⟩, hx.1]
      exact ⟨rfl, rfl⟩
  · intro hndc
    have hndc2 : ¬(s.pc x = .doneCompute ∨ (x = t ∧ s.pc t = .running)) :=
      fun hc => hndc ((stepSys_pc_doneCompute reqs t x s).mpr hc)
    have h1 : s.pc x ≠ .doneCompute := fun hc => hndc2 (Or.inl hc)
    have h2 : ¬(x = t ∧ s.pc t = .running) := fun hc => hndc2 (Or.inr hc)
    rw [stepSys_resolveCount, stepSys_future, if_neg h2, if_neg h2]
    exact (h x).2 h1

/-- Whole schedules preserve the resolution invariant. -/
theorem resolveInv_run {n : ℕ} (reqs : Fin n → Req) (sched : List (Fin n))
    (s : SysState n) (h : ResolveInv s) : ResolveInv (runSys reqs sched s) := by
  induction sched generalizing s with
  | nil => exact h
  | cons t rest ih => exact ih _ (resolveInv_step reqs t s h)

/-- Once a request has completed its compute path it stays completed. -/
theorem runSys_pc_dc_stable {n : ℕ} (reqs : Fin n → Req)
    (sched : List (Fin n)) (t : Fin n) (s : SysState n)
    (h : s.pc t = .doneCompute) : (runSys reqs sched s).pc t = .doneCompute := by
  induction sched generalizing s with
  | nil => exact h
  | cons t' rest ih =>
      exact ih _ ((stepSys_pc_doneCompute reqs t' t s).mpr (Or.inl h))

/-- Claim C5: on the non-bypass compute path, when the wrapped method of a
request completes, whether by normal return or by exception, the very next
state has no pending entry left for the request key and its future resolved
with result None: the future had never been resolved before, the completing
step resolves it exactly once, and under every continuation schedule the
resolve count stays one and the carried result stays None, never the
computed response. -/
theorem c5_pending_cleanup {n : ℕ} (reqs : Fin n → Req) (sched : List (Fin n))
    (t : Fin n) (h : (runSys reqs sched (initSys n)).pc t = .running) :
    (runSys reqs sched (initSys n)).resolveCount t = 0 ∧
    (runSys reqs sched (initSys n)).future t = none ∧
    (stepSys reqs t (runSys reqs sched (initSys n))).pending (reqs t).key = none ∧
    (stepSys reqs t (runSys reqs sched (initSys n))).future t = some none ∧
    (stepSys reqs t (runSys reqs sched (initSys n))).resolveCount t = 1 ∧
    ∀ sched2 : List (Fin n),
      (runSys reqs sched2
        (stepSys reqs t (runSys reqs sched (initSys n)))).resolveCount t = 1 ∧
      (runSys reqs sched2
        (stepSys reqs t (runSys reqs sched (initSys n)))).future t = some none := by
  set s := runSys reqs sched (initSys n) with hs
  have hinv : ResolveInv s := resolveInv_run reqs sched (initSys n) (resolveInv_init n)
  have h0 := (hinv t).2 (by rw [h]; intro hc; cases hc)
  have hpend : (stepSys reqs t s).pending (reqs t).key = none := by
    simp [stepSys, h, upd]
  have hfut : (stepSys reqs t s).future t = some none := by
    rw [stepSys_future, if_pos ⟨rfl, h⟩]
  have hrc1 : (stepSys reqs t s).resolveCount t = 1 := by
    rw [stepSys_resolveCount, if_pos ⟨rfl, h⟩, h0.1]
  have hdc : (stepSys reqs t s).pc t = .doneCompute :=
    (stepSys_pc_doneCompute reqs t t s).mpr (Or.inr ⟨rfl, h⟩)
  have hinv2 : ResolveInv (stepSys reqs t s) := resolveInv_step reqs t s hinv
  refine ⟨h0.1, h0.2, hpend, hfut, hrc1, ?_⟩
  intro sched2
  have hdc2 : (runSys reqs sched2 (stepSys reqs t s)).pc t = .doneCompute :=
    runSys_pc_dc_stable reqs sched2 t _ hdc
  exact (resolveInv_run reqs sched2 _ hinv2 t).1 hdc2

/-- Claim C5 witness: one concrete request that registered and is computing;
its completing step cleans up the registry and resolves its future once,
with None, and a further schedule keeps it so. -/
theorem c5_pending_cleanup_witness :
    (runSys (fun _ => raceReq) [0, 0, 0] (initSys 1)).resolveCount 0 = 0 ∧
    (runSys (fun _ => raceReq) [0, 0, 0] (initSys 1)).future 0 = none ∧
    (stepSys (fun _ => raceReq) 0
      (runSys (fun _ => raceReq) [0, 0, 0] (initSys 1))).pending raceReq.key = none ∧
    (stepSys (fun _ => raceReq) 0
      (runSys (fun _ => raceReq) [0, 0, 0] (initSys 1))).future 0 = some none ∧
    (stepSys (fun _ => raceReq) 0
      (runSys (fun _ => raceReq) [0, 0, 0] (initSys 1))).resolveCount 0 = 1 ∧
    (runSys (fun _ => raceReq) [0, 0]
      (stepSys (fun _ => raceReq) 0
        (runSys (fun _ => raceReq) [0, 0, 0] (initSys 1)))).resolveCount 0 = 1 ∧
    (runSys (fun _ => raceReq) [0, 0]
      (stepSys (fun _ => raceReq) 0
        (runSys (fun _ => raceReq) [0, 0, 0] (initSys 1)))).future 0 = some none := by
  have h := c5_pending_cleanup (n := 1) (fun _ => raceReq) [0, 0, 0] 0 (by decide)
  have h2 := h.2.2.2.2.2 [0, 0]
  exact ⟨h.1, h.2.1, h.2.2.1, h.2.2.2.1, h.2.2.2.2.1, h2.1, h2.2⟩

end NbviewerBase
